import Mathlib

/-!
# Downloader backend (`src/index.js`): a shallow embedding

The backend is one Express application.  It validates a submitted URL
(`isSupportedUrl`), derives a file name from the media title
(`createSafeFilename`), picks a format-selection expression from the requested
format token, runs the external tool (`executeYtDlp`) and maps the outcome to
an HTTP response.

JavaScript strings are embedded as Lean strings; the algorithms work on lists of
characters.  Numbers that occur (exit codes, HTTP statuses, lengths) are
integers.  What the JavaScript platform provides and the source only calls
(`new URL`, `JSON.parse`, the text of a `TypeError`) is a parameter of the
embedding, collected in `Platform`.
-/

namespace Downloader

/-! ## Strings -/

/-- The class `\w` of a regular expression without flags: `[A-Za-z0-9_]`. -/
def isWordChar (c : Char) : Bool :=
  (decide (97 ≤ c.toNat) && decide (c.toNat ≤ 122)) ||
  (decide (65 ≤ c.toNat) && decide (c.toNat ≤ 90)) ||
  (decide (48 ≤ c.toNat) && decide (c.toNat ≤ 57)) ||
  c == '_'

/-- The class `\s` of a regular expression, which is also the set of characters
`String.prototype.trim` removes: the ECMAScript white space and line terminator
code points. -/
def isJsSpace (c : Char) : Bool :=
  decide (c.toNat ∈ [9, 10, 11, 12, 13, 32, 160, 5760, 8232, 8233, 8239, 8287, 12288, 65279]) ||
  (decide (8192 ≤ c.toNat) && decide (c.toNat ≤ 8202))

/-- The hyphen test of the class `[^\w\s-]` and of the pattern `-+`. -/
def isHyphen (c : Char) : Bool := c == '-'

/-- A character the first replacement of `createSafeFilename` keeps: it is not
matched by `[^\w\s-]`. -/
def isKept (c : Char) : Bool := isWordChar c || isJsSpace c || isHyphen c

/-- The call `s.replace(/P+/g, r)` for a one-character class `P`: every maximal run of
characters of the class becomes one `r`.  The flag says that the previous
character belonged to a run, whose replacement is already written. -/
def replaceRuns (p : Char → Bool) (r : Char) : Bool → List Char → List Char
  | _, [] => []
  | inRun, c :: cs =>
    if p c then
      if inRun then replaceRuns p r true cs else r :: replaceRuns p r true cs
    else c :: replaceRuns p r false cs

/-- The call `s.trim()`: white space is removed at both ends. -/
def jsTrim (s : List Char) : List Char :=
  ((s.dropWhile isJsSpace).reverse.dropWhile isJsSpace).reverse

/-- The function `createSafeFilename` on the characters of the title.

The source chains five calls on the title: the global replacement of the class
`[^\w\s-]` by the empty string, of the pattern `\s+` by an underscore and of
the pattern `-+` by one hyphen, then `substring(0, 50)` and `trim()`.

`substring` counts UTF-16 code units.  The first replacement removes every
character outside the Basic Multilingual Plane (both halves of a surrogate pair
are outside `\w`, `\s` and `-`), so from then on one character is one code unit
and `substring(0, 50)` keeps the first 50 characters. -/
def createSafeFilenameChars (title : List Char) : List Char :=
  jsTrim
    ((replaceRuns isHyphen '-' false
      (replaceRuns isJsSpace '_' false (title.filter isKept))).take 50)

/-- The function `createSafeFilename` of the source. -/
def createSafeFilename (title : String) : String :=
  String.mk (createSafeFilenameChars title.data)

/-- The length of a string as JavaScript counts it, in UTF-16 code units. -/
def jsLength (s : String) : Nat :=
  (s.data.map (fun c => if c.toNat < 65536 then 1 else 2)).sum

/-- The characters a safe file name is made of: `[A-Za-z0-9_-]`. -/
def isSafeChar (c : Char) : Bool := isWordChar c || isHyphen c

/-- No hyphen follows a hyphen; with the flag set, the list does not start with one either. -/
def noHyphenRun : Bool → List Char → Bool
  | _, [] => true
  | afterHyphen, c :: cs =>
    if isHyphen c then !afterHyphen && noHyphenRun true cs else noHyphenRun false cs

/-- The call `s.includes(search)` on characters: `search` occurs in `s` as a
contiguous run. -/
def includesChars : List Char → List Char → Bool
  | [], search => search.isEmpty
  | c :: cs, search => search.isPrefixOf (c :: cs) || includesChars cs search

/-- The call `s.includes(search)` of `String.prototype`. -/
def includes (s search : String) : Bool := includesChars s.data search.data

/-! ## The Platform Gate -/

/-- What the handlers read of a parsed `URL` object. -/
structure URL where
  hostname : String

/-- A value of JavaScript as `JSON.parse` builds it, and `undefined`.  Numbers are
embedded as integers: the handlers only test a number against zero and copy it. -/
inductive JsVal where
  | undefined
  | null
  | bool (b : Bool)
  | num (n : Int)
  | str (s : String)
  | arr (items : List JsVal)
  | obj (fields : List (String × JsVal))

/-- What the source calls and does not define.  `parseURL` is `new URL(s)`, with
`none` for the `TypeError` it throws on a string that is no URL; `jsonParse` is
`JSON.parse`, with the message of the `SyntaxError` it throws; `typeError v key`
is the message of the `TypeError` thrown when property `key` of `v` cannot be
read or called; `toText` is the conversion of a value to a string. -/
structure Platform where
  parseURL : String → Option URL
  jsonParse : String → Except String JsVal
  typeError : JsVal → String → String
  toText : JsVal → String

/-- The constant `SUPPORTED_PLATFORMS`. -/
def SUPPORTED_PLATFORMS : List String :=
  ["youtube.com", "youtu.be", "facebook.com", "fb.watch", "instagram.com", "tiktok.com"]

/-- The function `isSupportedUrl`: the `catch` turns a failed parse into `false`. -/
def isSupportedUrl (P : Platform) (url : String) : Bool :=
  match P.parseURL url with
  | some u => SUPPORTED_PLATFORMS.any (fun domain => includes u.hostname domain)
  | none => false

/-! ## The format-selection expression -/

/-- The selection of `formatString` in the download handler (the chain of
`format.includes` tests), as a function of the format token and of `isTikTok`. -/
def formatString (format : String) (isTikTok : Bool) : String :=
  if isTikTok then
    if includes format "mp3" || includes format "audio" then
      "bestaudio[ext=mp3]/bestaudio/best"
    else if includes format "1080" || includes format "4k" then
      "best[height<=1080][ext=mp4]/bestvideo[height<=1080][ext=mp4]+bestaudio[ext=m4a]/best[height<=720][ext=mp4]"
    else if includes format "720" then
      "best[height<=720][ext=mp4]/bestvideo[height<=720][ext=mp4]+bestaudio[ext=m4a]/best[height<=480][ext=mp4]"
    else if includes format "480" then
      "best[height<=480][ext=mp4]/bestvideo[height<=480][ext=mp4]+bestaudio[ext=m4a]/best[height<=360][ext=mp4]"
    else if includes format "360" then
      "best[height<=360][ext=mp4]/bestvideo[height<=360][ext=mp4]+bestaudio[ext=m4a]/best[height<=240][ext=mp4]"
    else if includes format "240" then
      "best[height<=240][ext=mp4]/bestvideo[height<=240][ext=mp4]+bestaudio[ext=m4a]/worst[ext=mp4]"
    else
      "best[ext=mp4]/best[height<=720][ext=mp4]/bestvideo[ext=mp4]+bestaudio[ext=m4a]/best[height<=480][ext=mp4]"
  else
    if includes format "1080" || includes format "4k" then
      "best[height<=1080]/best[height<=720]/best"
    else if includes format "720" then "best[height<=720]/best[height<=480]/best"
    else if includes format "480" then "best[height<=480]/best[height<=360]/best"
    else if includes format "360" then "best[height<=360]/best[height<=240]/best"
    else if includes format "240" then "best[height<=240]/worst"
    else if includes format "mp3" || includes format "audio" then
      "bestaudio[ext=mp3]/bestaudio/best"
    else if includes format "aac" then "bestaudio[ext=aac]/bestaudio/best"
    else if includes format "m4a" then "bestaudio[ext=m4a]/bestaudio/best"
    else if includes format "ogg" then "bestaudio[ext=ogg]/bestaudio/best"
    else if includes format "wav" then "bestaudio[ext=wav]/bestaudio/best"
    else if includes format "flac" then "bestaudio[ext=flac]/bestaudio/best"
    else if includes format "avi" then "best[ext=avi]/best"
    else if includes format "mov" then "best[ext=mov]/best"
    else if includes format "mkv" then "best[ext=mkv]/best"
    else if includes format "webm" then "best[ext=webm]/best"
    else if includes format "flv" then "best[ext=flv]/best"
    else if includes format "wmv" then "best[ext=wmv]/best"
    else if includes format "worst" then "worst"
    else if includes format "audio-only" then "bestaudio/best"
    else if includes format "video-only" then "bestvideo/best"
    else if includes format "best" then "best"
    else "best[height<=1080]/best[height<=720]/best[height<=480]/best"

/-- The constant `isTikTok` of the download handler: `url.includes('tiktok.com')`. -/
def isTikTok (url : String) : Bool := includes url "tiktok.com"

/-- The array `infoArgs` of the download handler. -/
def infoArgs (url : String) : List String :=
  ["--dump-single-json", "--no-playlist"] ++
    (if includes url "tiktok.com" then
      ["--extractor-args", "tiktok:api_hostname=api16-normal-c-useast1a.tiktokv.com",
       "--force-generic-extractor"]
     else [])

/-- The arguments every download gets, around the format expression. -/
def baseDownloadArgs (expr : String) : List String :=
  ["--format", expr,
   "--output", "-",
   "--no-playlist",
   "--no-check-certificates",
   "--no-warnings",
   "--prefer-free-formats",
   "--add-header", "referer:youtube.com",
   "--add-header", "user-agent:Mozilla/5.0 (Windows NT 10.0; Win64; x64) AppleWebKit/537.36 (KHTML, like Gecko) Chrome/91.0.4472.124 Safari/537.36"]

/-- The arguments pushed onto `downloadArgs` when `isTikTok` holds. -/
def tikTokDownloadArgs : List String :=
  ["--extractor-args", "tiktok:api_hostname=api16-normal-c-useast1a.tiktokv.com",
   "--force-generic-extractor",
   "--no-part",
   "--merge-output-format", "mp4",
   "--postprocessors", "merge",
   "--add-header", "user-agent:Mozilla/5.0 (Windows NT 10.0; Win64; x64) AppleWebKit/537.36 (KHTML, like Gecko) Chrome/120.0.0.0 Safari/537.36",
   "--add-header", "referer:https://www.tiktok.com/",
   "--add-header", "accept:video/webm,video/ogg,video/*;q=0.9,application/ogg;q=0.7,audio/*;q=0.6,*/*;q=0.5"]

/-- The array `downloadArgs` of the download handler. -/
def downloadArgs (url format : String) : List String :=
  baseDownloadArgs (formatString format (isTikTok url)) ++
    (if isTikTok url then tikTokDownloadArgs else [])

/-! ## The invoker `executeYtDlp` -/

/-- How the promise of `executeYtDlp` settles: `resolve(stdout)`, or `reject` with an
error of the given message. -/
inductive Outcome where
  | resolved (stdout : String)
  | rejected (message : String)
deriving DecidableEq, Repr

/-- What can happen to one invocation after the spawn, in the order of the event
loop: a chunk on either stream, the `close` event with the exit code (`none` is the
`null` of a process ended by a signal), the `error` event of the child process,
and a call of `abort()` on the controller whose signal was passed in. -/
inductive ProcEvent where
  | stdoutData (chunk : String)
  | stderrData (chunk : String)
  | close (code : Option Int)
  | error (message : String)
  | abort
deriving DecidableEq, Repr

/-- The state of one invocation: the command line handed to `spawn`, the two
accumulators, the state of the promise, the number of `process.kill('SIGTERM')`
calls made, whether a listener was registered on a signal, and the `aborted`
flag of that signal. -/
structure Invocation where
  argv : List String
  stdout : String
  stderr : String
  settled : Option Outcome
  kills : Nat
  hasSignal : Bool
  aborted : Bool
deriving DecidableEq, Repr

/-- The functions `resolve` and `reject` of a promise: the first call settles it,
every later call does nothing. -/
def Invocation.settle (s : Invocation) (o : Outcome) : Invocation :=
  match s.settled with
  | some _ => s
  | none => { s with settled := some o }

/-- The text a template literal puts for the exit code. -/
def codeText : Option Int → String
  | some n => toString n
  | none => "null"

/-- The listeners of `executeYtDlp`, one event at a time.  An `AbortSignal`
dispatches `abort` once: a call of `abort()` on an aborted controller does
nothing, and nothing is dispatched where no listener was added.  The abort
listener calls `process.kill('SIGTERM')` and then `reject`; the call of `kill` is
counted and is taken to raise no event of its own. -/
def Invocation.step (s : Invocation) : ProcEvent → Invocation
  | .stdoutData chunk => { s with stdout := s.stdout ++ chunk }
  | .stderrData chunk => { s with stderr := s.stderr ++ chunk }
  | .close code =>
    if code = some 0 then s.settle (.resolved s.stdout)
    else s.settle (.rejected (if s.stderr ≠ "" then s.stderr
                              else "Process exited with code " ++ codeText code))
  | .error message => s.settle (.rejected message)
  | .abort =>
    if s.aborted then s
    else if s.hasSignal then
      ({ s with aborted := true, kills := s.kills + 1 }).settle (.rejected "Download cancelled")
    else { s with aborted := true }

/-- The function `executeYtDlp`: the process is spawned on `url` and `args`, the
listeners are installed (the abort listener only when `abortSignal` is not
`null`), and the events are handled as they come. -/
def executeYtDlp (url : String) (args : List String) (abortSignal : Bool)
    (events : List ProcEvent) : Invocation :=
  events.foldl Invocation.step
    { argv := url :: args, stdout := "", stderr := "", settled := none, kills := 0,
      hasSignal := abortSignal, aborted := false }

/-- What holds of every state of an invocation: a termination request has been sent
exactly when a listened-to signal has fired, and then the promise is settled. -/
def Invocation.inv (s : Invocation) : Prop :=
  s.kills = (if s.aborted && s.hasSignal then 1 else 0) ∧
  (s.hasSignal = true → s.aborted = true → ∃ o, s.settled = some o)

/-- A chunk of output: an event of one of the two streams. -/
def ProcEvent.isData : ProcEvent → Bool
  | .stdoutData _ => true
  | .stderrData _ => true
  | _ => false

/-- The text on standard error that a list of events carries. -/
def stderrText : List ProcEvent → String
  | [] => ""
  | .stderrData chunk :: es => chunk ++ stderrText es
  | _ :: es => stderrText es

/-! ## Responses -/

/-- The body of a response: `res.json(value)` or `res.send(text)`. -/
inductive Body where
  | json (value : JsVal)
  | raw (text : String)

/-- A response: the status, the headers the handler sets with `setHeader`, the body. -/
structure Response where
  status : Nat
  headers : List (String × String)
  body : Body

/-- Whether a value counts as true in a condition. -/
def JsVal.truthy : JsVal → Bool
  | .undefined => false
  | .null => false
  | .bool b => b
  | .num n => n != 0
  | .str s => s != ""
  | .arr _ => true
  | .obj _ => true

/-- The operator `||` on values. -/
def jsOr (a b : JsVal) : JsVal := if a.truthy then a else b

/-- Reading property `key` of a value, for the keys the handlers read (none of
them is a method of a prototype): a field of an object, the length of a string
or an array, `undefined` otherwise; reading from `null` or `undefined` throws. -/
def getProp (P : Platform) (v : JsVal) (key : String) : Except String JsVal :=
  match v with
  | .undefined => .error (P.typeError v key)
  | .null => .error (P.typeError v key)
  | .obj fields => .ok ((fields.lookup key).getD .undefined)
  | .arr items => .ok (if key = "length" then .num items.length else .undefined)
  | .str s => .ok (if key = "length" then .num (jsLength s) else .undefined)
  | _ => .ok .undefined

/-- The first `n` UTF-16 code units of a string, `s.substring(0, n)`.  Where the
cut falls inside a surrogate pair JavaScript keeps its first half, which no Lean
string holds; it is left out here. -/
def takeUnits : Nat → List Char → List Char
  | _, [] => []
  | n, c :: cs =>
    if c.toNat < 65536 then (if 1 ≤ n then c :: takeUnits (n - 1) cs else [])
    else (if 2 ≤ n then c :: takeUnits (n - 2) cs else [])

/-! ## The info handler -/

/-- The object `responseData` of the info handler, built from the parsed
metadata `info`; an error is the message of the exception thrown on the way. -/
def responseData (P : Platform) (info : JsVal) : Except String JsVal :=
  match getProp P info "title" with
  | .error m => .error m
  | .ok title =>
    let get := fun key => (getProp P info key).toOption.getD .undefined
    let description := get "description"
    let formats := get "formats"
    let descriptionField : Except String JsVal :=
      if description.truthy then
        match description with
        | .str d => .ok (.str (String.mk (takeUnits 200 d.data) ++ "..."))
        | v => .error (P.typeError v "substring")
      else .ok .null
    match descriptionField with
    | .error m => .error m
    | .ok d =>
      .ok (.obj
        [("title", jsOr (jsOr title (get "fulltitle")) (.str "Unknown Title")),
         ("duration", jsOr (get "duration") .null),
         ("uploader", jsOr (jsOr (get "uploader") (get "channel")) (.str "Unknown")),
         ("thumbnail", jsOr (get "thumbnail") .null),
         ("description", d),
         ("formats",
            if formats.truthy then (getProp P formats "length").toOption.getD .undefined
            else .num 0)])

/-- The `catch` of the info handler. -/
def infoFailed (message : String) : Response :=
  { status := 500, headers := [],
    body := .json (.obj [("error", .str "Failed to fetch video information."),
                         ("details", .str message)]) }

/-- The handler of `POST /api/info`, for a body whose `url` is a string or
absent, against the events of its one tool invocation.  `none`: the promise
never settles and no response is sent.

The promise resolves with the accumulated standard output, a string, and the
handler reads the property `stdout` of that string. -/
def infoHandler (P : Platform) (url : Option String) (tool : List ProcEvent) :
    Option Response :=
  match url with
  | none => some { status := 400, headers := [],
                   body := .json (.obj [("error", .str "URL is required.")]) }
  | some url =>
    if url = "" then
      some { status := 400, headers := [],
             body := .json (.obj [("error", .str "URL is required.")]) }
    else if !isSupportedUrl P url then
      some { status := 400, headers := [],
             body := .json (.obj [("error",
               .str "Unsupported platform. We support YouTube, Facebook, Instagram, and TikTok.")]) }
    else
      match (executeYtDlp url ["--dump-single-json", "--no-playlist"] false tool).settled with
      | none => none
      | some (.rejected message) => some (infoFailed message)
      | some (.resolved stdout) =>
        let result := JsVal.str stdout
        match getProp P result "stdout" with
        | .error m => some (infoFailed m)
        | .ok out =>
          if !out.truthy then
            some { status := 500, headers := [],
                   body := .json (.obj [("error", .str "Could not fetch video information.")]) }
          else
            match P.jsonParse (P.toText out) with
            | .error m => some (infoFailed m)
            | .ok info =>
              match responseData P info with
              | .error m => some (infoFailed m)
              | .ok data => some { status := 200, headers := [], body := .json data }

/-! ## The download handler -/

/-- The body of a download request: `url`, `format` and `platform`, each a string
or absent. -/
structure DownloadRequest where
  url : Option String
  format : Option String
  platform : Option String

/-- The `catch` of the download handler; `headers` are those set before the throw. -/
def downloadFailed (headers : List (String × String)) (message : String) : Response :=
  if message = "Download cancelled" then
    { status := 499, headers := headers,
      body := .json (.obj [("error", .str "Download cancelled by user")]) }
  else
    { status := 500, headers := headers,
      body := .json (.obj [("error", .str "Download failed."), ("details", .str message)]) }

/-- The headers set before the media fetch. -/
def downloadHeaders (filename : String) : List (String × String) :=
  [("Content-Disposition", "attachment; filename=\"" ++ filename ++ "\""),
   ("Content-Type", "application/octet-stream"),
   ("Access-Control-Expose-Headers", "Content-Disposition"),
   ("Transfer-Encoding", "chunked")]

/-- What one run of a handler does: the command lines it hands to `spawn`, in order
(each is the `argv` of the invocation, the URL and then the arguments), and the
response; `none`: a promise never settles and no response is sent. -/
structure HandlerRun where
  spawned : List (List String)
  response : Option Response

/-- The handler of `POST /api/download`, against the events of its metadata
invocation and of its media invocation: the processes it spawns and its response.
The field `platform` is destructured and not read again. -/
def downloadRun (P : Platform) (req : DownloadRequest)
    (infoTool mediaTool : List ProcEvent) : HandlerRun :=
  match req.url with
  | none =>
    { spawned := [],
      response := some { status := 400, headers := [],
                         body := .json (.obj [("error", .str "URL is required.")]) } }
  | some url =>
    let format := req.format.getD "best"
    if url = "" then
      { spawned := [],
        response := some { status := 400, headers := [],
                           body := .json (.obj [("error", .str "URL is required.")]) } }
    else if !isSupportedUrl P url then
      { spawned := [],
        response := some
          { status := 400, headers := [],
            body := .json (.obj [("error",
              .str "Unsupported platform. We support YouTube, Facebook, Instagram, and TikTok.")]) } }
    else
      let infoProcess := executeYtDlp url (infoArgs url) true infoTool
      match infoProcess.settled with
      | none => { spawned := [infoProcess.argv], response := none }
      | some (.rejected message) =>
        { spawned := [infoProcess.argv], response := some (downloadFailed [] message) }
      | some (.resolved infoResult) =>
        if infoResult = "" then
          { spawned := [infoProcess.argv],
            response := some
              { status := 500, headers := [],
                body := .json (.obj [("error",
                  .str "Could not fetch video information for download.")]) } }
        else
          match P.jsonParse infoResult with
          | .error m => { spawned := [infoProcess.argv], response := some (downloadFailed [] m) }
          | .ok info =>
            match getProp P info "title" with
            | .error m =>
              { spawned := [infoProcess.argv], response := some (downloadFailed [] m) }
            | .ok (.str title) =>
              let filename := createSafeFilename title ++ ".mp4"
              let headers := downloadHeaders filename
              let downloadProcess := executeYtDlp url (downloadArgs url format) true mediaTool
              match downloadProcess.settled with
              | none =>
                { spawned := [infoProcess.argv, downloadProcess.argv], response := none }
              | some (.rejected message) =>
                { spawned := [infoProcess.argv, downloadProcess.argv],
                  response := some (downloadFailed headers message) }
              | some (.resolved media) =>
                { spawned := [infoProcess.argv, downloadProcess.argv],
                  response := some { status := 200, headers := headers, body := .raw media } }
            | .ok v =>
              { spawned := [infoProcess.argv],
                response := some (downloadFailed [] (P.typeError v "replace")) }

/-- The response of the handler of `POST /api/download`. -/
def downloadHandler (P : Platform) (req : DownloadRequest)
    (infoTool mediaTool : List ProcEvent) : Option Response :=
  (downloadRun P req infoTool mediaTool).response

/-! ## The documented priority list, for comparison with `formatString` -/

/-- A resolution tier of the documented priority list: the substrings that select
it, and its height-capped chain in the regular table and in the table of platform X. -/
structure Tier where
  tokens : List String
  regular : String
  tikTok : String
deriving DecidableEq, Repr

/-- The tier of 1080 or 4k. -/
def tier1080 : Tier :=
  { tokens := ["1080", "4k"],
    regular := "best[height<=1080]/best[height<=720]/best",
    tikTok := "best[height<=1080][ext=mp4]/bestvideo[height<=1080][ext=mp4]+bestaudio[ext=m4a]/best[height<=720][ext=mp4]" }

/-- The tier of 720. -/
def tier720 : Tier :=
  { tokens := ["720"],
    regular := "best[height<=720]/best[height<=480]/best",
    tikTok := "best[height<=720][ext=mp4]/bestvideo[height<=720][ext=mp4]+bestaudio[ext=m4a]/best[height<=480][ext=mp4]" }

/-- The tier of 480. -/
def tier480 : Tier :=
  { tokens := ["480"],
    regular := "best[height<=480]/best[height<=360]/best",
    tikTok := "best[height<=480][ext=mp4]/bestvideo[height<=480][ext=mp4]+bestaudio[ext=m4a]/best[height<=360][ext=mp4]" }

/-- The tier of 360. -/
def tier360 : Tier :=
  { tokens := ["360"],
    regular := "best[height<=360]/best[height<=240]/best",
    tikTok := "best[height<=360][ext=mp4]/bestvideo[height<=360][ext=mp4]+bestaudio[ext=m4a]/best[height<=240][ext=mp4]" }

/-- The tier of 240. -/
def tier240 : Tier :=
  { tokens := ["240"],
    regular := "best[height<=240]/worst",
    tikTok := "best[height<=240][ext=mp4]/bestvideo[height<=240][ext=mp4]+bestaudio[ext=m4a]/worst[ext=mp4]" }

/-- The resolution tiers in their documented order: 1080 or 4k, 720, 480, 360, 240. -/
def resolutionTiers : List Tier := [tier1080, tier720, tier480, tier360, tier240]

/-- The first tier, in priority order, one of whose substrings the token contains. -/
def firstTier (format : String) : Option Tier :=
  resolutionTiers.find? (fun t => t.tokens.any (fun k => includes format k))

/-- The substrings that select a resolution tier. -/
def resolutionTokens : List String := ["1080", "4k", "720", "480", "360", "240"]

/-- The documented audio tokens. -/
def audioTokens : List String := ["mp3", "aac", "m4a", "ogg", "wav", "flac", "audio"]

/-- The first alternative of a format-selection expression: the text before the first slash. -/
def firstAlternative (expr : String) : List Char := expr.data.takeWhile (fun c => c != '/')

/-- An audio-only expression: its first alternative selects `bestaudio`, so that no
alternative for a video stream stands before it. -/
def isAudioOnly (expr : String) : Bool := "bestaudio".data.isPrefixOf (firstAlternative expr)

/-! ## A platform to run the handlers on concrete requests -/

/-- The characters of a plain host name: lower-case letters, digits, dot, hyphen. -/
def isPlainHostChar (c : Char) : Bool :=
  (decide (97 ≤ c.toNat) && decide (c.toNat ≤ 122)) ||
  (decide (48 ≤ c.toNat) && decide (c.toNat ≤ 57)) || c == '.' || c == '-'

/-- A stand-in for `new URL`: it accepts `http://` or `https://` followed by a plain
host name that ends at the first `/`, `?` or `#`, and gives that host name; every
other string is rejected. -/
def sampleParseURL (s : String) : Option URL :=
  let rest : Option (List Char) :=
    if "https://".data.isPrefixOf s.data then some (s.data.drop 8)
    else if "http://".data.isPrefixOf s.data then some (s.data.drop 7)
    else none
  match rest with
  | none => none
  | some r =>
    let host := r.takeWhile (fun c => !(c == '/' || c == '?' || c == '#'))
    if !host.isEmpty && host.all isPlainHostChar then some { hostname := String.mk host }
    else none

/-- The metadata document of the first end-to-end scenario, as the tool prints it. -/
def scenarioJson : String :=
  "\x7b\"title\":\"My Video!\",\"duration\":125,\"uploader\":\"Chan\"\x7d"

/-- The value `JSON.parse` gives for `scenarioJson`. -/
def scenarioInfo : JsVal :=
  .obj [("title", .str "My Video!"), ("duration", .num 125), ("uploader", .str "Chan")]

/-- A stand-in for the platform: `sampleParseURL`, and a `JSON.parse` that reads
`scenarioJson` and rejects every other text. -/
def samplePlatform : Platform where
  parseURL := sampleParseURL
  jsonParse := fun s => if s = scenarioJson then .ok scenarioInfo else .error "Unexpected token"
  typeError := fun _ key => "Cannot read properties (reading " ++ key ++ ")"
  toText := fun v => match v with
    | .str s => s
    | _ => ""

/-- A URL of an allow-listed host other than platform X whose query holds the text
`tiktok.com`. -/
def crossUrl : String := "https://www.youtube.com/watch?v=tiktok.com"

/-! ## The file-name sanitizer: lemmas and theorems -/

theorem isHyphen_iff (c : Char) : isHyphen c = true ↔ c = '-' := by
  simp [isHyphen]

theorem isWordChar_bounds (c : Char) (h : isWordChar c = true) :
    (97 ≤ c.toNat ∧ c.toNat ≤ 122) ∨ (65 ≤ c.toNat ∧ c.toNat ≤ 90) ∨
      (48 ≤ c.toNat ∧ c.toNat ≤ 57) ∨ c.toNat = 95 := by
  have hu : ('_' : Char).toNat = 95 := by decide
  simp only [isWordChar, Bool.or_eq_true, Bool.and_eq_true, decide_eq_true_eq,
    beq_iff_eq] at h
  rcases h with ((h | h) | h) | h
  · exact Or.inl h
  · exact Or.inr (Or.inl h)
  · exact Or.inr (Or.inr (Or.inl h))
  · exact Or.inr (Or.inr (Or.inr (by rw [h, hu])))

theorem isJsSpace_of_isWordChar (c : Char) (h : isWordChar c = true) : isJsSpace c = false := by
  have hc := isWordChar_bounds c h
  simp only [isJsSpace, Bool.or_eq_false_iff, Bool.and_eq_false_iff,
    decide_eq_false_iff_not, List.mem_cons, List.mem_singleton, List.not_mem_nil, or_false]
  omega

theorem isJsSpace_hyphen : isJsSpace '-' = false := by decide

theorem isSafeChar_not_space (c : Char) (h : isSafeChar c = true) : isJsSpace c = false := by
  simp only [isSafeChar, Bool.or_eq_true] at h
  rcases h with h | h
  · exact isJsSpace_of_isWordChar c h
  · rw [(isHyphen_iff c).1 h]; exact isJsSpace_hyphen

theorem isSafeChar_kept (c : Char) (h : isSafeChar c = true) : isKept c = true := by
  simp only [isSafeChar, Bool.or_eq_true] at h
  simp only [isKept, Bool.or_eq_true]
  tauto

theorem isSafeChar_of_kept (c : Char) (h : isKept c = true) (hs : isJsSpace c = false) :
    isSafeChar c = true := by
  simp only [isKept, Bool.or_eq_true, hs] at h
  simp only [isSafeChar, Bool.or_eq_true]
  tauto

theorem isSafeChar_bmp (c : Char) (h : isSafeChar c = true) : c.toNat < 65536 := by
  simp only [isSafeChar, Bool.or_eq_true] at h
  rcases h with h | h
  · have := isWordChar_bounds c h; omega
  · rw [(isHyphen_iff c).1 h]; decide

/-- What `replaceRuns` writes: the replacement, or a character of the input outside the class. -/
theorem mem_replaceRuns (p : Char → Bool) (r : Char) (l : List Char) :
    ∀ (b : Bool) (c : Char), c ∈ replaceRuns p r b l → c = r ∨ (c ∈ l ∧ p c = false) := by
  induction l with
  | nil => intro b c h; simp [replaceRuns] at h
  | cons a as ih =>
    intro b c h
    by_cases hp : p a = true
    · cases b with
      | true =>
        simp only [replaceRuns, hp, if_true] at h
        rcases ih true c h with h1 | ⟨h1, h2⟩
        · exact Or.inl h1
        · exact Or.inr ⟨List.mem_cons_of_mem _ h1, h2⟩
      | false =>
        simp only [replaceRuns, hp, if_true, Bool.false_eq_true, if_false, List.mem_cons] at h
        rcases h with h | h
        · exact Or.inl h
        · rcases ih true c h with h1 | ⟨h1, h2⟩
          · exact Or.inl h1
          · exact Or.inr ⟨List.mem_cons_of_mem _ h1, h2⟩
    · simp only [replaceRuns, hp, Bool.false_eq_true, if_false, List.mem_cons] at h
      rcases h with h | h
      · subst h
        exact Or.inr ⟨List.mem_cons_self _ _, by simpa using hp⟩
      · rcases ih false c h with h1 | ⟨h1, h2⟩
        · exact Or.inl h1
        · exact Or.inr ⟨List.mem_cons_of_mem _ h1, h2⟩

theorem replaceRuns_of_none (p : Char → Bool) (r : Char) (l : List Char) :
    ∀ (b : Bool), (∀ c ∈ l, p c = false) → replaceRuns p r b l = l := by
  induction l with
  | nil => intro b _; rfl
  | cons a as ih =>
    intro b h
    have ha : p a = false := h a (List.mem_cons_self _ _)
    simp only [replaceRuns, ha, Bool.false_eq_true, if_false]
    rw [ih false (fun c hc => h c (List.mem_cons_of_mem _ hc))]

theorem noHyphenRun_replaceRuns (l : List Char) :
    ∀ (b : Bool), noHyphenRun b (replaceRuns isHyphen '-' b l) = true := by
  induction l with
  | nil => intro b; rfl
  | cons a as ih =>
    intro b
    by_cases hp : isHyphen a = true
    · cases b with
      | true => simp only [replaceRuns, hp, if_true]; exact ih true
      | false =>
        have hh : isHyphen '-' = true := by decide
        simp only [replaceRuns, hp, if_true, Bool.false_eq_true, if_false, noHyphenRun, hh,
          Bool.not_false, Bool.true_and]
        exact ih true
    · simp only [replaceRuns, hp, Bool.false_eq_true, if_false, noHyphenRun]
      exact ih false

theorem noHyphenRun_take (l : List Char) :
    ∀ (m : Nat) (b : Bool), noHyphenRun b l = true → noHyphenRun b (l.take m) = true := by
  induction l with
  | nil => intro m b _; simp [noHyphenRun]
  | cons a as ih =>
    intro m b h
    cases m with
    | zero => simp [noHyphenRun]
    | succ k =>
      by_cases hp : isHyphen a = true
      · simp only [noHyphenRun, hp, if_true, Bool.and_eq_true] at h
        simp only [List.take_succ_cons, noHyphenRun, hp, if_true, Bool.and_eq_true]
        exact ⟨h.1, ih k true h.2⟩
      · simp only [noHyphenRun, hp, Bool.false_eq_true, if_false] at h
        simp only [List.take_succ_cons, noHyphenRun, hp, Bool.false_eq_true, if_false]
        exact ih k false h

theorem replaceRuns_of_noHyphenRun (l : List Char) :
    ∀ (b : Bool), noHyphenRun b l = true → replaceRuns isHyphen '-' b l = l := by
  induction l with
  | nil => intro b _; rfl
  | cons a as ih =>
    intro b h
    by_cases hp : isHyphen a = true
    · simp only [noHyphenRun, hp, if_true, Bool.and_eq_true, Bool.not_eq_true'] at h
      have ha : a = '-' := (isHyphen_iff a).1 hp
      rw [h.1]
      simp only [replaceRuns, hp, if_true, Bool.false_eq_true, if_false]
      rw [ih true h.2, ha]
    · simp only [noHyphenRun, hp, Bool.false_eq_true, if_false] at h
      simp only [replaceRuns, hp, Bool.false_eq_true, if_false]
      rw [ih false h]

theorem dropWhile_of_none (p : Char → Bool) (l : List Char) (h : ∀ c ∈ l, p c = false) :
    l.dropWhile p = l := by
  cases l with
  | nil => rfl
  | cons a as =>
    have ha : p a = false := h a (List.mem_cons_self _ _)
    simp [List.dropWhile, ha]

theorem jsTrim_of_none (l : List Char) (h : ∀ c ∈ l, isJsSpace c = false) : jsTrim l = l := by
  unfold jsTrim
  rw [dropWhile_of_none isJsSpace l h,
    dropWhile_of_none isJsSpace l.reverse (fun c hc => h c (List.mem_reverse.1 hc)),
    List.reverse_reverse]


/-- The sanitizer before its `trim`: the result is made of safe characters, has no
run of hyphens and at most 50 characters, and `trim` leaves it as it is. -/
theorem createSafeFilenameChars_spec (t : List Char) :
    (∀ c ∈ createSafeFilenameChars t, isSafeChar c = true) ∧
    noHyphenRun false (createSafeFilenameChars t) = true ∧
    (createSafeFilenameChars t).length ≤ 50 ∧
    createSafeFilenameChars t =
      (replaceRuns isHyphen '-' false
        (replaceRuns isJsSpace '_' false (t.filter isKept))).take 50 := by
  have hsafe : ∀ c ∈ (replaceRuns isHyphen '-' false
      (replaceRuns isJsSpace '_' false (t.filter isKept))).take 50, isSafeChar c = true := by
    intro c hc
    rcases mem_replaceRuns _ _ _ _ c (List.mem_of_mem_take hc) with h | ⟨h, _⟩
    · rw [h]; decide
    · rcases mem_replaceRuns _ _ _ _ c h with h1 | ⟨h1, h2⟩
      · rw [h1]; decide
      · exact isSafeChar_of_kept c (List.mem_filter.1 h1).2 h2
  have heq : createSafeFilenameChars t =
      (replaceRuns isHyphen '-' false
        (replaceRuns isJsSpace '_' false (t.filter isKept))).take 50 :=
    jsTrim_of_none _ (fun c hc => isSafeChar_not_space c (hsafe c hc))
  refine ⟨?_, ?_, ?_, heq⟩
  · rw [heq]; exact hsafe
  · rw [heq]; exact noHyphenRun_take _ 50 false (noHyphenRun_replaceRuns _ false)
  · rw [heq]; exact List.length_take_le 50 _

/-- A list that already has the shape of a sanitized name is a fixed point. -/
theorem createSafeFilenameChars_fixed (l : List Char) (hsafe : ∀ c ∈ l, isSafeChar c = true)
    (hrun : noHyphenRun false l = true) (hlen : l.length ≤ 50) :
    createSafeFilenameChars l = l := by
  have h1 : l.filter isKept = l :=
    List.filter_eq_self.2 (fun c hc => isSafeChar_kept c (hsafe c hc))
  have h2 : replaceRuns isJsSpace '_' false l = l :=
    replaceRuns_of_none _ _ l false (fun c hc => isSafeChar_not_space c (hsafe c hc))
  have h3 : replaceRuns isHyphen '-' false l = l := replaceRuns_of_noHyphenRun l false hrun
  have h4 : l.take 50 = l := List.take_of_length_le hlen
  unfold createSafeFilenameChars
  rw [h1, h2, h3, h4]
  exact jsTrim_of_none l (fun c hc => isSafeChar_not_space c (hsafe c hc))

theorem jsLength_of_bmp (l : List Char) (h : ∀ c ∈ l, c.toNat < 65536) :
    jsLength (String.mk l) = l.length := by
  unfold jsLength
  induction l with
  | nil => rfl
  | cons a as ih =>
    have ha : a.toNat < 65536 := h a (List.mem_cons_self _ _)
    have ih2 := ih (fun c hc => h c (List.mem_cons_of_mem _ hc))
    simp only [List.map_cons, List.sum_cons, ha, if_true, List.length_cons] at ih2 ⊢
    omega

/-- C7: the file-name sanitizer is idempotent: for every string `x`,
`createSafeFilename (createSafeFilename x) = createSafeFilename x`. -/
theorem createSafeFilename_idempotent (x : String) :
    createSafeFilename (createSafeFilename x) = createSafeFilename x := by
  obtain ⟨hsafe, hrun, hlen, _⟩ := createSafeFilenameChars_spec x.data
  unfold createSafeFilename
  exact congrArg String.mk (createSafeFilenameChars_fixed _ hsafe hrun hlen)

/-- C8: the output of the file-name sanitizer is bounded and safe: for every string `x`
the result has at most 50 UTF-16 code units (and as many characters), every one of its
characters is a word character, a space or a hyphen, and when the first replacement
strips every character of `x` (in particular when `x` is empty) the result is the
empty string. -/
theorem createSafeFilename_bounded_safe (x : String) :
    jsLength (createSafeFilename x) ≤ 50 ∧
    (createSafeFilename x).length ≤ 50 ∧
    (∀ c ∈ (createSafeFilename x).data, isWordChar c = true ∨ c = ' ' ∨ c = '-') ∧
    ((∀ c ∈ x.data, isKept c = false) → createSafeFilename x = "") := by
  obtain ⟨hsafe, _, hlen, heq⟩ := createSafeFilenameChars_spec x.data
  refine ⟨?_, hlen, ?_, ?_⟩
  · unfold createSafeFilename
    rw [jsLength_of_bmp _ (fun c hc => isSafeChar_bmp c (hsafe c hc))]
    exact hlen
  · intro c hc
    have h := hsafe c hc
    simp only [isSafeChar, Bool.or_eq_true] at h
    rcases h with h | h
    · exact Or.inl h
    · exact Or.inr (Or.inr ((isHyphen_iff c).1 h))
  · intro hall
    have hnil : x.data.filter isKept = [] :=
      List.filter_eq_nil_iff.2 (fun c hc => by simp [hall c hc])
    unfold createSafeFilename
    rw [heq, hnil]
    rfl

/-! ## The format-selection expression: lemmas and theorems -/

/-- The executable test `includesChars` decides the infix relation. -/
theorem includesChars_iff (hay needle : List Char) :
    includesChars hay needle = true ↔ needle <:+: hay := by
  induction hay with
  | nil => simp [includesChars, List.isEmpty_iff]
  | cons c cs ih =>
    simp only [includesChars, Bool.or_eq_true, List.isPrefixOf_iff_prefix, ih,
      List.infix_cons_iff]

theorem includes_iff (s search : String) :
    includes s search = true ↔ search.data <:+: s.data :=
  includesChars_iff s.data search.data

/-- A token that contains `long` contains every part of `long`. -/
theorem includes_of_part (s long part : String) (hp : includes long part = true)
    (h : includes s long = true) : includes s part = true :=
  (includes_iff s part).2 (((includes_iff long part).1 hp).trans ((includes_iff s long).1 h))

/-- A conditional avoids a value that both of its branches avoid. -/
theorem ite_ne_of_ne {c : Prop} [Decidable c] {a b x : String} (ha : a ≠ x) (hb : b ≠ x) :
    (if c then a else b) ≠ x := by
  split <;> assumption

theorem formatString_ne_flag (format : String) (b : Bool) :
    formatString format b ≠ "--merge-output-format" := by
  cases b
  · simp only [formatString, Bool.false_eq_true, if_false]
    repeat' apply ite_ne_of_ne
    all_goals decide
  · simp only [formatString, if_true]
    repeat' apply ite_ne_of_ne
    all_goals decide

/-- No token reaches the branch of `audio-only`: the expression `bestaudio/best` is never chosen. -/
theorem formatString_ne_bestaudio_best (format : String) (b : Bool) :
    formatString format b ≠ "bestaudio/best" := by
  cases b
  · by_cases ha : includes format "audio-only" = true
    · have h2 : includes format "audio" = true :=
        includes_of_part format "audio-only" "audio" (by decide) ha
      simp only [formatString, Bool.false_eq_true, if_false, h2, Bool.or_true, if_true]
      repeat' apply ite_ne_of_ne
      all_goals decide
    · simp only [formatString, Bool.false_eq_true, if_false, ha]
      repeat' apply ite_ne_of_ne
      all_goals decide
  · simp only [formatString, if_true]
    repeat' apply ite_ne_of_ne
    all_goals decide

/-- C5: of the four sentinel tokens on a URL that is not of platform X, `worst`,
`video-only` and `best` resolve to `worst`, `bestvideo/best` and `best`, but
`audio-only` resolves to the expression of the tokens `mp3` and `audio`, not to
`bestaudio/best`: the test for `audio` stands before the test for `audio-only`,
whose branch no token reaches. -/
theorem formatString_audio_only :
    formatString "audio-only" false = "bestaudio[ext=mp3]/bestaudio/best" ∧
    formatString "audio-only" false ≠ "bestaudio/best" ∧
    (∀ (format : String) (isTikTok : Bool), formatString format isTikTok ≠ "bestaudio/best") ∧
    formatString "worst" false = "worst" ∧
    formatString "video-only" false = "bestvideo/best" ∧
    formatString "best" false = "best" :=
  ⟨by decide, by decide, formatString_ne_bestaudio_best, by decide, by decide, by decide⟩


/-- C4, as the code has it: for a token that contains a resolution-tier substring, with
`t` the first such tier in priority order, the regular table resolves the token to the
chain of `t` whatever else the token contains; the table of platform X resolves it to
its chain of `t` when the token contains neither `mp3` nor `audio`, and to the
expression of `mp3` and `audio` when it contains one of them, since there the audio
test stands first. -/
theorem formatString_first_tier (format : String) (isTikTok : Bool) (t : Tier)
    (ht : firstTier format = some t) :
    (isTikTok = false → formatString format isTikTok = t.regular) ∧
    (isTikTok = true → includes format "mp3" = false → includes format "audio" = false →
      formatString format isTikTok = t.tikTok) ∧
    (isTikTok = true → (includes format "mp3" = true ∨ includes format "audio" = true) →
      formatString format isTikTok = "bestaudio[ext=mp3]/bestaudio/best") := by
  have key : formatString format false = t.regular ∧
      (includes format "mp3" = false → includes format "audio" = false →
        formatString format true = t.tikTok) := by
    simp only [firstTier, resolutionTiers, tier1080, tier720, tier480, tier360, tier240,
      List.find?, List.any, Bool.or_false] at ht
    by_cases h1 : (includes format "1080" || includes format "4k") = true
    · simp only [h1, Option.some.injEq] at ht
      subst ht
      refine ⟨?_, fun hm ha => ?_⟩
      · simp only [formatString, Bool.false_eq_true, if_false, h1, if_true]
      · simp only [formatString, if_true, hm, ha, Bool.or_self, Bool.false_eq_true, if_false, h1]
    · simp only [h1] at ht
      by_cases h2 : includes format "720" = true
      · simp only [h2, Option.some.injEq] at ht
        subst ht
        refine ⟨?_, fun hm ha => ?_⟩
        · simp only [formatString, Bool.false_eq_true, if_false, h1, h2, if_true]
        · simp only [formatString, if_true, hm, ha, Bool.or_self, Bool.false_eq_true, if_false,
            h1, h2]
      · simp only [h2] at ht
        by_cases h3 : includes format "480" = true
        · simp only [h3, Option.some.injEq] at ht
          subst ht
          refine ⟨?_, fun hm ha => ?_⟩
          · simp only [formatString, Bool.false_eq_true, if_false, h1, h2, h3, if_true]
          · simp only [formatString, if_true, hm, ha, Bool.or_self, Bool.false_eq_true,
              if_false, h1, h2, h3]
        · simp only [h3] at ht
          by_cases h4 : includes format "360" = true
          · simp only [h4, Option.some.injEq] at ht
            subst ht
            refine ⟨?_, fun hm ha => ?_⟩
            · simp only [formatString, Bool.false_eq_true, if_false, h1, h2, h3, h4, if_true]
            · simp only [formatString, if_true, hm, ha, Bool.or_self, Bool.false_eq_true,
                if_false, h1, h2, h3, h4]
          · simp only [h4] at ht
            by_cases h5 : includes format "240" = true
            · simp only [h5, Option.some.injEq] at ht
              subst ht
              refine ⟨?_, fun hm ha => ?_⟩
              · simp only [formatString, Bool.false_eq_true, if_false, h1, h2, h3, h4, h5,
                  if_true]
              · simp only [formatString, if_true, hm, ha, Bool.or_self, Bool.false_eq_true,
                  if_false, h1, h2, h3, h4, h5]
            · simp [h5] at ht
  refine ⟨fun hb => ?_, fun hb hm ha => ?_, fun hb h => ?_⟩
  · rw [hb]; exact key.1
  · rw [hb]; exact key.2 hm ha
  · rw [hb]
    have hor : (includes format "mp3" || includes format "audio") = true := by
      rcases h with h | h <;> simp [h]
    simp only [formatString, if_true, hor]

/-- C4 at the token `1080-mp3`, whose first tier is that of 1080: the regular table
gives the chain of 1080. -/
theorem formatString_first_tier_witness :
    firstTier "1080-mp3" = some tier1080 ∧
    formatString "1080-mp3" false = "best[height<=1080]/best[height<=720]/best" :=
  ⟨by decide, (formatString_first_tier "1080-mp3" false tier1080 (by decide)).1 rfl⟩

/-- C4 as stated fails on platform X: the token `1080-mp3` contains the tier substring
`1080`, whose chain is the first in priority order, and is resolved to the audio
expression. -/
theorem formatString_tier_first_fails_on_tikTok :
    (firstTier "1080-mp3").map Tier.tikTok = some
      "best[height<=1080][ext=mp4]/bestvideo[height<=1080][ext=mp4]+bestaudio[ext=m4a]/best[height<=720][ext=mp4]" ∧
    formatString "1080-mp3" true = "bestaudio[ext=mp3]/bestaudio/best" ∧
    ¬ (∀ (format : String) (isTikTok : Bool) (t : Tier), firstTier format = some t →
        formatString format isTikTok = if isTikTok then t.tikTok else t.regular) := by
  refine ⟨by decide, by decide, fun h => ?_⟩
  have h1 := h "1080-mp3" true tier1080 (by decide : firstTier "1080-mp3" = some tier1080)
  exact absurd h1 (by decide)

/-- C6, as the code has it: on platform X a token that contains `mp3` or `audio` (and no
resolution-tier substring) is resolved to an audio-only expression, namely
`bestaudio[ext=mp3]/bestaudio/best`; a token that contains neither of the two and no
resolution-tier substring is resolved to the default chain of platform X, whose first
alternative is a video stream, whichever of `aac`, `m4a`, `ogg`, `wav`, `flac` it holds. -/
theorem formatString_tikTok_audio (format : String)
    (hres : ∀ k ∈ resolutionTokens, includes format k = false) :
    (∀ t ∈ ["mp3", "audio"], includes format t = true →
      formatString format true = "bestaudio[ext=mp3]/bestaudio/best" ∧
      isAudioOnly (formatString format true) = true) ∧
    (includes format "mp3" = false → includes format "audio" = false →
      formatString format true =
        "best[ext=mp4]/best[height<=720][ext=mp4]/bestvideo[ext=mp4]+bestaudio[ext=m4a]/best[height<=480][ext=mp4]" ∧
      isAudioOnly (formatString format true) = false) := by
  constructor
  · intro t ht hin
    have hor : (includes format "mp3" || includes format "audio") = true := by
      simp only [List.mem_cons, List.mem_singleton, List.not_mem_nil, or_false] at ht
      rcases ht with ht | ht <;> subst ht <;> simp [hin]
    have he : formatString format true = "bestaudio[ext=mp3]/bestaudio/best" := by
      simp only [formatString, if_true, hor]
    exact ⟨he, by rw [he]; decide⟩
  · intro hm ha
    have r1 := hres "1080" (by decide)
    have r2 := hres "4k" (by decide)
    have r3 := hres "720" (by decide)
    have r4 := hres "480" (by decide)
    have r5 := hres "360" (by decide)
    have r6 := hres "240" (by decide)
    have he : formatString format true =
        "best[ext=mp4]/best[height<=720][ext=mp4]/bestvideo[ext=mp4]+bestaudio[ext=m4a]/best[height<=480][ext=mp4]" := by
      simp only [formatString, if_true, hm, ha, r1, r2, r3, r4, r5, r6, Bool.or_self,
        Bool.false_eq_true, if_false]
    exact ⟨he, by rw [he]; decide⟩

/-- C6 at the token `mp3` on platform X: the expression is audio-only. -/
theorem formatString_tikTok_audio_witness :
    (∀ k ∈ resolutionTokens, includes "mp3" k = false) ∧
    formatString "mp3" true = "bestaudio[ext=mp3]/bestaudio/best" ∧
    isAudioOnly (formatString "mp3" true) = true :=
  ⟨by decide, (formatString_tikTok_audio "mp3" (by decide)).1 "mp3" (by decide) (by decide)⟩

/-- C6 as stated fails at the audio token `aac`: the token `aac` contains it and no
resolution-tier substring, and on platform X it is resolved to the default chain, whose
first alternative `best[ext=mp4]` is not an audio-only selection. -/
theorem formatString_tikTok_aac_not_audio :
    "aac" ∈ audioTokens ∧ includes "aac" "aac" = true ∧
    (∀ k ∈ resolutionTokens, includes "aac" k = false) ∧
    formatString "aac" true =
      "best[ext=mp4]/best[height<=720][ext=mp4]/bestvideo[ext=mp4]+bestaudio[ext=m4a]/best[height<=480][ext=mp4]" ∧
    isAudioOnly (formatString "aac" true) = false := by
  refine ⟨by decide, by decide, by decide, by decide, by decide⟩

/-! ## The invoker: lemmas and theorems -/

theorem settle_of_some (s : Invocation) (o o' : Outcome) (h : s.settled = some o) :
    s.settle o' = s := by
  simp [Invocation.settle, h]

theorem settle_of_none (s : Invocation) (o : Outcome) (h : s.settled = none) :
    s.settle o = { s with settled := some o } := by
  simp [Invocation.settle, h]

/-- A settled promise stays as it is under one more event. -/
theorem step_settled (s : Invocation) (e : ProcEvent) (o : Outcome) (h : s.settled = some o) :
    (s.step e).settled = some o := by
  cases e with
  | stdoutData chunk => simpa [Invocation.step] using h
  | stderrData chunk => simpa [Invocation.step] using h
  | close code =>
    simp only [Invocation.step]
    split <;> rw [settle_of_some s o _ h] <;> exact h
  | error message => simp only [Invocation.step]; rw [settle_of_some s o _ h]; exact h
  | abort =>
    simp only [Invocation.step]
    split
    · exact h
    · split
      · rw [settle_of_some _ o _ (by simpa using h)]; simpa using h
      · simpa using h

theorem foldl_settled (events : List ProcEvent) :
    ∀ (s : Invocation) (o : Outcome), s.settled = some o →
      (events.foldl Invocation.step s).settled = some o := by
  induction events with
  | nil => intro s o h; exact h
  | cons e es ih => intro s o h; exact ih (s.step e) o (step_settled s e o h)


theorem settle_fields (s : Invocation) (o : Outcome) :
    (s.settle o).kills = s.kills ∧ (s.settle o).aborted = s.aborted ∧
    (s.settle o).hasSignal = s.hasSignal ∧ (s.settle o).stderr = s.stderr ∧
    ∃ o', (s.settle o).settled = some o' := by
  unfold Invocation.settle
  cases h : s.settled with
  | none => simp
  | some o' => simp [h]

theorem step_inv (s : Invocation) (e : ProcEvent) (h : s.inv) : (s.step e).inv := by
  obtain ⟨hk, hs⟩ := h
  cases e with
  | stdoutData chunk => exact ⟨hk, hs⟩
  | stderrData chunk => exact ⟨hk, hs⟩
  | close code =>
    simp only [Invocation.step]
    split
    · obtain ⟨h1, h2, h3, _, h5⟩ := settle_fields s (.resolved s.stdout)
      exact ⟨by rw [h1, h2, h3]; exact hk, fun _ _ => h5⟩
    · obtain ⟨h1, h2, h3, _, h5⟩ := settle_fields s
        (.rejected (if s.stderr ≠ "" then s.stderr
                    else "Process exited with code " ++ codeText code))
      exact ⟨by rw [h1, h2, h3]; exact hk, fun _ _ => h5⟩
  | error message =>
    simp only [Invocation.step]
    obtain ⟨h1, h2, h3, _, h5⟩ := settle_fields s (.rejected message)
    exact ⟨by rw [h1, h2, h3]; exact hk, fun _ _ => h5⟩
  | abort =>
    simp only [Invocation.step]
    by_cases ha : s.aborted = true
    · rw [if_pos ha]; exact ⟨hk, hs⟩
    · rw [if_neg ha]
      by_cases hl : s.hasSignal = true
      · rw [if_pos hl]
        obtain ⟨h1, h2, h3, _, h5⟩ := settle_fields
          { s with aborted := true, kills := s.kills + 1 } (.rejected "Download cancelled")
        refine ⟨?_, fun _ _ => h5⟩
        rw [h1, h2, h3]
        simp only [Bool.not_eq_true] at ha
        simp [hk, ha, hl]
      · rw [if_neg hl]
        simp only [Bool.not_eq_true] at ha hl
        refine ⟨?_, fun h => ?_⟩
        · simp [hk, ha, hl]
        · simp [hl] at h

theorem foldl_inv (events : List ProcEvent) :
    ∀ s : Invocation, s.inv → (events.foldl Invocation.step s).inv := by
  induction events with
  | nil => intro s h; exact h
  | cons e es ih => intro s h; exact ih (s.step e) (step_inv s e h)

theorem executeYtDlp_inv (url : String) (args : List String) (signal : Bool)
    (events : List ProcEvent) : (executeYtDlp url args signal events).inv :=
  foldl_inv events _ ⟨by simp, fun _ h => by simp at h⟩

/-- Chunks of output leave the promise, the signal and the request count as they are,
and add their text to the accumulator of standard error. -/
theorem foldl_data (pre : List ProcEvent) :
    ∀ s : Invocation, (∀ e ∈ pre, e.isData = true) →
      (pre.foldl Invocation.step s).settled = s.settled ∧
      (pre.foldl Invocation.step s).kills = s.kills ∧
      (pre.foldl Invocation.step s).aborted = s.aborted ∧
      (pre.foldl Invocation.step s).hasSignal = s.hasSignal ∧
      (pre.foldl Invocation.step s).stderr = s.stderr ++ stderrText pre := by
  induction pre with
  | nil => intro s _; simp [stderrText]
  | cons e es ih =>
    intro s h
    have he : e.isData = true := h e (List.mem_cons_self _ _)
    have ih2 := ih (s.step e) (fun x hx => h x (List.mem_cons_of_mem _ hx))
    cases e with
    | stdoutData chunk => simpa [Invocation.step, stderrText] using ih2
    | stderrData chunk => simpa [Invocation.step, stderrText, String.append_assoc] using ih2
    | close code => simp [ProcEvent.isData] at he
    | error message => simp [ProcEvent.isData] at he
    | abort => simp [ProcEvent.isData] at he

/-- With a listener on the signal, an event that is no chunk of output settles the promise. -/
theorem step_settles (s : Invocation) (e : ProcEvent) (hs : s.hasSignal = true) (hi : s.inv)
    (he : e.isData = false) : ∃ o, (s.step e).settled = some o := by
  cases e with
  | stdoutData chunk => simp [ProcEvent.isData] at he
  | stderrData chunk => simp [ProcEvent.isData] at he
  | close code =>
    simp only [Invocation.step]
    split
    · exact (settle_fields s _).2.2.2.2
    · exact (settle_fields s _).2.2.2.2
  | error message => exact (settle_fields s _).2.2.2.2
  | abort =>
    simp only [Invocation.step]
    by_cases ha : s.aborted = true
    · rw [if_pos ha]; exact hi.2 hs ha
    · rw [if_neg ha, if_pos hs]; exact (settle_fields _ _).2.2.2.2

theorem step_hasSignal (s : Invocation) (e : ProcEvent) : (s.step e).hasSignal = s.hasSignal := by
  cases e with
  | stdoutData chunk => rfl
  | stderrData chunk => rfl
  | close code =>
    simp only [Invocation.step]
    split <;> exact (settle_fields s _).2.2.1
  | error message => exact (settle_fields s _).2.2.1
  | abort =>
    simp only [Invocation.step]
    split
    · rfl
    · split
      · exact (settle_fields _ _).2.2.1
      · rfl

theorem step_aborted (s : Invocation) (e : ProcEvent) (h : s.aborted = true) :
    (s.step e).aborted = true := by
  cases e with
  | stdoutData chunk => exact h
  | stderrData chunk => exact h
  | close code =>
    simp only [Invocation.step]
    split <;> rw [(settle_fields s _).2.1] <;> exact h
  | error message => simp only [Invocation.step]; rw [(settle_fields s _).2.1]; exact h
  | abort => simp only [Invocation.step]; rw [if_pos h]; exact h

theorem foldl_aborted (events : List ProcEvent) :
    ∀ s : Invocation, s.aborted = true → (events.foldl Invocation.step s).aborted = true := by
  induction events with
  | nil => intro s h; exact h
  | cons e es ih => intro s h; exact ih (s.step e) (step_aborted s e h)

theorem foldl_hasSignal (events : List ProcEvent) :
    ∀ s : Invocation, (events.foldl Invocation.step s).hasSignal = s.hasSignal := by
  induction events with
  | nil => intro s; rfl
  | cons e es ih => intro s; rw [List.foldl_cons, ih, step_hasSignal]

theorem foldl_settles (events : List ProcEvent) :
    ∀ s : Invocation, s.hasSignal = true → s.inv → (∃ e ∈ events, e.isData = false) →
      ∃ o, (events.foldl Invocation.step s).settled = some o := by
  induction events with
  | nil => intro s _ _ h; obtain ⟨e, he, _⟩ := h; simp at he
  | cons a as ih =>
    intro s hs hi h
    by_cases ha : a.isData = false
    · obtain ⟨o, ho⟩ := step_settles s a hs hi ha
      exact ⟨o, foldl_settled as (s.step a) o ho⟩
    · obtain ⟨e, he, hd⟩ := h
      rcases List.mem_cons.1 he with h1 | h1
      · rw [h1] at hd; exact absurd hd ha
      · exact ih (s.step a) (by rw [step_hasSignal]; exact hs) (step_inv s a hi) ⟨e, h1, hd⟩

/-- C3, as the code has it: when the signal of an invocation fires before its `close`
event and before any `error` event (only chunks of output come earlier), the outcome is
the error `Download cancelled` and stays so under every later event, and the process
got one termination request.  For every invocation and every order of events: at most
one termination request is sent; an outcome, once settled, is never replaced; and with
a signal, as soon as a `close`, `error` or abort has occurred there is an outcome. -/
theorem executeYtDlp_cancel_first (url : String) (args : List String)
    (pre post : List ProcEvent) (hpre : ∀ e ∈ pre, e.isData = true) :
    (executeYtDlp url args true (pre ++ .abort :: post)).settled
      = some (.rejected "Download cancelled") ∧
    (executeYtDlp url args true (pre ++ .abort :: post)).kills = 1 ∧
    (∀ (signal : Bool) (events : List ProcEvent),
      (executeYtDlp url args signal events).kills ≤ 1) ∧
    (∀ (signal : Bool) (events more : List ProcEvent) (o : Outcome),
      (executeYtDlp url args signal events).settled = some o →
      (executeYtDlp url args signal (events ++ more)).settled = some o) ∧
    (∀ events : List ProcEvent, (∃ e ∈ events, e.isData = false) →
      ∃ o, (executeYtDlp url args true events).settled = some o) := by
  have hafter : ((pre.foldl Invocation.step
      { argv := url :: args, stdout := "", stderr := "", settled := none, kills := 0,
        hasSignal := true, aborted := false }).step .abort).settled
        = some (.rejected "Download cancelled") ∧
      ((pre.foldl Invocation.step
      { argv := url :: args, stdout := "", stderr := "", settled := none, kills := 0,
        hasSignal := true, aborted := false }).step .abort).aborted = true := by
    obtain ⟨h1, _, h3, h4, _⟩ := foldl_data pre
      { argv := url :: args, stdout := "", stderr := "", settled := none, kills := 0,
        hasSignal := true, aborted := false } hpre
    simp only at h1 h3 h4
    simp [Invocation.step, Invocation.settle, h1, h3, h4]
  have hsettled : (executeYtDlp url args true (pre ++ .abort :: post)).settled
      = some (.rejected "Download cancelled") := by
    unfold executeYtDlp
    rw [List.foldl_append, List.foldl_cons]
    exact foldl_settled post _ _ hafter.1
  refine ⟨hsettled, ?_, ?_, ?_, ?_⟩
  · obtain ⟨hk, _⟩ := executeYtDlp_inv url args true (pre ++ .abort :: post)
    have hab : (executeYtDlp url args true (pre ++ .abort :: post)).aborted = true := by
      unfold executeYtDlp
      rw [List.foldl_append, List.foldl_cons]
      exact foldl_aborted post _ hafter.2
    have hsig : (executeYtDlp url args true (pre ++ .abort :: post)).hasSignal = true := by
      unfold executeYtDlp
      rw [foldl_hasSignal]
    rw [hk, hab, hsig]
    rfl
  · intro signal events
    obtain ⟨hk, _⟩ := executeYtDlp_inv url args signal events
    rw [hk]; split <;> omega
  · intro signal events more o h
    unfold executeYtDlp at h ⊢
    rw [List.foldl_append]
    exact foldl_settled more _ o h
  · intro events h
    exact foldl_settles events _ rfl ⟨by simp, fun _ h => by simp at h⟩ h


/-- C3 on a run where two chunks come first, the signal fires, and the process then
closes and reports an error: the outcome is `Download cancelled`. -/
theorem executeYtDlp_cancel_first_witness :
    (executeYtDlp "https://www.youtube.com/watch?v=abc" ["--output", "-"] true
      ([.stdoutData "ab", .stderrData "warn"] ++
        .abort :: [.close none, .error "kill EPERM", .abort])).settled
      = some (.rejected "Download cancelled") :=
  (executeYtDlp_cancel_first "https://www.youtube.com/watch?v=abc" ["--output", "-"]
    [.stdoutData "ab", .stderrData "warn"] [.close none, .error "kill EPERM", .abort]
    (by decide)).1

/-- C3 as stated fails when an `error` event comes first: the spawn fails, the signal
fires before the `close` event and its listener runs (one termination request), and the
outcome is the spawn error, not `Download cancelled`. -/
theorem executeYtDlp_error_before_abort :
    (executeYtDlp "https://www.youtube.com/watch?v=abc" ["--dump-single-json", "--no-playlist"]
      true [.error "spawn yt-dlp ENOENT", .abort, .close (some (-2))]).settled
      = some (.rejected "spawn yt-dlp ENOENT") ∧
    (executeYtDlp "https://www.youtube.com/watch?v=abc" ["--dump-single-json", "--no-playlist"]
      true [.error "spawn yt-dlp ENOENT", .abort, .close (some (-2))]).kills = 1 ∧
    ¬ (∀ (pre post : List ProcEvent), (∀ e ∈ pre, ∀ code, e ≠ .close code) →
        (executeYtDlp "https://www.youtube.com/watch?v=abc"
          ["--dump-single-json", "--no-playlist"] true (pre ++ .abort :: post)).settled
          = some (.rejected "Download cancelled")) := by
  refine ⟨by decide, by decide, fun h => ?_⟩
  have h1 := h [.error "spawn yt-dlp ENOENT"] [.close (some (-2))]
    (fun e he code => by rw [List.mem_singleton.1 he]; exact fun hc => ProcEvent.noConfusion hc)
  exact absurd h1 (by decide)

/-! ## The handlers: lemmas and theorems -/

/-- The intended projection of the first end-to-end scenario: `responseData` on the
parsed metadata document gives the documented body. -/
theorem responseData_scenario (P : Platform) :
    responseData P scenarioInfo = .ok (.obj
      [("title", .str "My Video!"), ("duration", .num 125), ("uploader", .str "Chan"),
       ("thumbnail", .null), ("description", .null), ("formats", .num 0)]) := by
  rfl

/-- C1 on the code: whenever the tool invocation of the info handler resolves (exit code
0), whatever its standard output, the handler answers 500 with
`Could not fetch video information.`; it reads the property `stdout` of the
resolved string, which is `undefined`.  No run of the handler reaches status 200. -/
theorem infoHandler_resolved (P : Platform) (url stdout : String) (tool : List ProcEvent)
    (hne : url ≠ "") (hsup : isSupportedUrl P url = true)
    (hres : (executeYtDlp url ["--dump-single-json", "--no-playlist"] false tool).settled
      = some (.resolved stdout)) :
    infoHandler P (some url) tool =
      some { status := 500, headers := [],
             body := .json (.obj [("error", .str "Could not fetch video information.")]) } := by
  have hkey : ("stdout" : String) ≠ "length" := by decide
  simp only [infoHandler, hne, if_false, hsup, Bool.not_true, Bool.false_eq_true, hres, getProp,
    hkey, JsVal.truthy, Bool.not_false, if_true]

/-- The first end-to-end scenario on the code: the tool prints the metadata document and
exits with code 0, and the info handler answers 500. -/
theorem infoHandler_scenario :
    isSupportedUrl samplePlatform "https://www.youtube.com/watch?v=abc" = true ∧
    (executeYtDlp "https://www.youtube.com/watch?v=abc" ["--dump-single-json", "--no-playlist"]
      false [.stdoutData scenarioJson, .close (some 0)]).settled
      = some (.resolved scenarioJson) ∧
    infoHandler samplePlatform (some "https://www.youtube.com/watch?v=abc")
      [.stdoutData scenarioJson, .close (some 0)] =
      some { status := 500, headers := [],
             body := .json (.obj [("error", .str "Could not fetch video information.")]) } :=
  ⟨by decide, by decide,
    infoHandler_resolved samplePlatform "https://www.youtube.com/watch?v=abc" scenarioJson
      [.stdoutData scenarioJson, .close (some 0)] (by decide) (by decide) (by decide)⟩

/-- The outcome of an invocation whose process closes with a code other than 0 after
chunks of output only. -/
theorem executeYtDlp_exit_nonzero (url : String) (args : List String) (signal : Bool)
    (pre post : List ProcEvent) (code : Int) (hpre : ∀ e ∈ pre, e.isData = true)
    (hcode : code ≠ 0) :
    (executeYtDlp url args signal (pre ++ .close (some code) :: post)).settled =
      some (.rejected (if stderrText pre ≠ "" then stderrText pre
                       else "Process exited with code " ++ toString code)) := by
  unfold executeYtDlp
  rw [List.foldl_append, List.foldl_cons]
  apply foldl_settled
  obtain ⟨h1, _, _, _, h5⟩ := foldl_data pre
    { argv := url :: args, stdout := "", stderr := "", settled := none, kills := 0,
      hasSignal := signal, aborted := false } hpre
  simp only [String.empty_append] at h1 h5
  have hc : (some code : Option Int) ≠ some 0 := by simpa using hcode
  simp only [Invocation.step, hc, if_false, Invocation.settle, h1, h5, codeText]

theorem exit_message_ne_cancelled (x : String) :
    "Process exited with code " ++ x ≠ "Download cancelled" := by
  intro h
  have h2 := congrArg (fun s => s.data.head?) h
  simp [String.data_append] at h2


/-- C2 on the code: when the metadata fetch of a download has succeeded (the
tool resolved with a non-empty document that parses and whose title is a string) and
the media process, the client still connected, closes with a code `N` other than 0
after writing the text `s` on standard error, then, unless `s` is the text
`Download cancelled`, the response is 500 with the body `error: Download failed.` and
`details: d`, where `d` is `s` when `s` is not empty and `Process exited with code N`
otherwise; when `s` is the text `Download cancelled`, by which the handler recognises
a cancellation, the response is 499 with `error: Download cancelled by user`. -/
theorem downloadHandler_media_failure (P : Platform) (req : DownloadRequest)
    (url infoResult title : String) (info : JsVal) (infoTool pre post : List ProcEvent)
    (code : Int)
    (hurl : req.url = some url) (hne : url ≠ "") (hsup : isSupportedUrl P url = true)
    (hinfo : (executeYtDlp url (infoArgs url) true infoTool).settled
      = some (.resolved infoResult))
    (hdoc : infoResult ≠ "") (hparse : P.jsonParse infoResult = .ok info)
    (htitle : getProp P info "title" = .ok (.str title))
    (hpre : ∀ e ∈ pre, e.isData = true) (hcode : code ≠ 0) :
    (stderrText pre ≠ "Download cancelled" →
      downloadHandler P req infoTool (pre ++ .close (some code) :: post) =
        some { status := 500,
               headers := downloadHeaders (createSafeFilename title ++ ".mp4"),
               body := .json (.obj
                 [("error", .str "Download failed."),
                  ("details", .str (if stderrText pre ≠ "" then stderrText pre
                                    else "Process exited with code " ++ toString code))]) }) ∧
    (stderrText pre = "Download cancelled" →
      downloadHandler P req infoTool (pre ++ .close (some code) :: post) =
        some { status := 499,
               headers := downloadHeaders (createSafeFilename title ++ ".mp4"),
               body := .json (.obj [("error", .str "Download cancelled by user")]) }) := by
  have hmedia := executeYtDlp_exit_nonzero url (downloadArgs url (req.format.getD "best")) true
    pre post code hpre hcode
  constructor
  · intro hs
    have hmsg : (if stderrText pre ≠ "" then stderrText pre
        else "Process exited with code " ++ toString code) ≠ "Download cancelled" := by
      split
      · exact hs
      · exact exit_message_ne_cancelled _
    simp only [downloadHandler, downloadRun, hurl, hne, if_false, hsup, Bool.not_true,
      Bool.false_eq_true, hinfo, hdoc, hparse, htitle, hmedia, downloadFailed, hmsg]
  · intro hs
    have hmsg : (if stderrText pre ≠ "" then stderrText pre
        else "Process exited with code " ++ toString code) = "Download cancelled" := by
      rw [hs]; exact if_pos (by decide)
    simp only [downloadHandler, downloadRun, hurl, hne, if_false, hsup, Bool.not_true,
      Bool.false_eq_true, hinfo, hdoc, hparse, htitle, hmedia, downloadFailed, hmsg, if_true]

/-- C2 at two runs of the media process: exit code 1 with `network error` on standard
error (the fifth end-to-end scenario) gives 500 with the details `network error`; exit
code 1 with `Download cancelled` on standard error gives 499. -/
theorem downloadHandler_media_failure_witness :
    downloadHandler samplePlatform
      { url := some "https://www.youtube.com/watch?v=abc", format := some "720",
        platform := none }
      [.stdoutData scenarioJson, .close (some 0)]
      ([.stderrData "network error"] ++ .close (some 1) :: []) =
      some { status := 500,
             headers := downloadHeaders "My_Video.mp4",
             body := .json (.obj
               [("error", .str "Download failed."), ("details", .str "network error")]) } ∧
    downloadHandler samplePlatform
      { url := some "https://www.youtube.com/watch?v=abc", format := some "720",
        platform := none }
      [.stdoutData scenarioJson, .close (some 0)]
      ([.stderrData "Download cancelled"] ++ .close (some 1) :: []) =
      some { status := 499,
             headers := downloadHeaders "My_Video.mp4",
             body := .json (.obj [("error", .str "Download cancelled by user")]) } :=
  ⟨(downloadHandler_media_failure samplePlatform
    { url := some "https://www.youtube.com/watch?v=abc", format := some "720", platform := none }
    "https://www.youtube.com/watch?v=abc" scenarioJson "My Video!" scenarioInfo
    [.stdoutData scenarioJson, .close (some 0)] [.stderrData "network error"] [] 1
    rfl (by decide) (by decide) (by decide) (by decide) rfl rfl (by decide) (by decide)).1
    (by decide),
   (downloadHandler_media_failure samplePlatform
    { url := some "https://www.youtube.com/watch?v=abc", format := some "720", platform := none }
    "https://www.youtube.com/watch?v=abc" scenarioJson "My Video!" scenarioInfo
    [.stdoutData scenarioJson, .close (some 0)] [.stderrData "Download cancelled"] [] 1
    rfl (by decide) (by decide) (by decide) (by decide) rfl rfl (by decide) (by decide)).2
    (by decide)⟩

/-- The same failure of the tool in the info handler, which makes no such comparison:
exit code 1 with `Download cancelled` on standard error gives 500 with that text as
details. -/
theorem infoHandler_stderr_cancelled :
    infoHandler samplePlatform (some "https://www.youtube.com/watch?v=abc")
      [.stderrData "Download cancelled", .close (some 1)] =
      some { status := 500, headers := [],
             body := .json (.obj [("error", .str "Failed to fetch video information."),
                                  ("details", .str "Download cancelled")]) } := by
  rfl

/-- The download handler at the standard-error text `Download cancelled`: the media
process exits with code 1, no abort occurs, and the response is 499
`Download cancelled by user`, not 500; so not every failing media process is answered
with 500. -/
theorem downloadHandler_stderr_cancelled :
    stderrText [.stderrData "Download cancelled"] = "Download cancelled" ∧
    downloadHandler samplePlatform
      { url := some "https://www.youtube.com/watch?v=abc", format := none, platform := none }
      [.stdoutData scenarioJson, .close (some 0)]
      [.stderrData "Download cancelled", .close (some 1)] =
      some { status := 499,
             headers := downloadHeaders "My_Video.mp4",
             body := .json (.obj [("error", .str "Download cancelled by user")]) } ∧
    ¬ (∀ (pre : List ProcEvent) (code : Int), (∀ e ∈ pre, e.isData = true) → code ≠ 0 →
        (downloadHandler samplePlatform
          { url := some "https://www.youtube.com/watch?v=abc", format := none,
            platform := none }
          [.stdoutData scenarioJson, .close (some 0)]
          (pre ++ [.close (some code)])).map Response.status = some 500) := by
  refine ⟨by decide, by rfl, fun h => ?_⟩
  have h1 := h [.stderrData "Download cancelled"] 1 (by decide) (by decide)
  exact absurd h1 (by decide)


/-- C9: the Platform Gate never throws and accepts exactly the allow-listed hosts:
`isSupportedUrl` is a total function; it gives `false` for a string the URL parser
rejects, and for a string that parses it gives `true` if and only if the parsed
host name contains one of `youtube.com`, `youtu.be`, `facebook.com`, `fb.watch`,
`instagram.com`, `tiktok.com` as a substring. -/
theorem isSupportedUrl_iff (P : Platform) (url : String) :
    (P.parseURL url = none → isSupportedUrl P url = false) ∧
    (∀ u : URL, P.parseURL url = some u →
      (isSupportedUrl P url = true ↔
        ∃ domain ∈ ["youtube.com", "youtu.be", "facebook.com", "fb.watch",
                    "instagram.com", "tiktok.com"],
          domain.data <:+: u.hostname.data)) := by
  constructor
  · intro h
    simp [isSupportedUrl, h]
  · intro u h
    simp only [isSupportedUrl, h, SUPPORTED_PLATFORMS, List.any_eq_true, includes_iff]

/-- The gate on strings without a scheme, run with the stand-in parser. -/
theorem isSupportedUrl_schemeless :
    isSupportedUrl samplePlatform "youtube.com/watch?v=abc" = false ∧
    isSupportedUrl samplePlatform "//www.youtube.com/watch?v=abc" = false ∧
    isSupportedUrl samplePlatform "https://www.youtube.com/watch?v=abc" = true ∧
    isSupportedUrl samplePlatform "https://example.org/youtube.com" = false := by
  refine ⟨by decide, by decide, by decide, by decide⟩

theorem mem_downloadArgs_flag (url format : String) :
    "--merge-output-format" ∈ downloadArgs url format ↔ isTikTok url = true := by
  constructor
  · intro h
    by_cases ht : isTikTok url = true
    · exact ht
    · exfalso
      simp only [downloadArgs, ht, Bool.false_eq_true, if_false, List.append_nil,
        baseDownloadArgs, List.mem_cons, List.mem_singleton, List.not_mem_nil, or_false] at h
      rcases h with h | h | h
      · exact absurd h (by decide)
      · exact formatString_ne_flag format false h.symm
      · revert h; decide
  · intro ht
    simp only [downloadArgs, ht, if_true, List.mem_append]
    exact Or.inr (by decide)

theorem mem_infoArgs_flag (url : String) :
    "--extractor-args" ∈ infoArgs url ↔ isTikTok url = true := by
  unfold infoArgs isTikTok
  by_cases ht : includes url "tiktok.com" = true
  · simp only [ht, if_true]
    exact ⟨fun _ => trivial, fun _ => by decide⟩
  · simp only [ht, Bool.false_eq_true, if_false, List.append_nil]
    exact ⟨fun h => absurd h (by decide), fun h => absurd h (by decide)⟩

theorem step_argv (s : Invocation) (e : ProcEvent) : (s.step e).argv = s.argv := by
  cases e with
  | stdoutData chunk => rfl
  | stderrData chunk => rfl
  | close code =>
    simp only [Invocation.step, Invocation.settle]
    split <;> split <;> rfl
  | error message =>
    simp only [Invocation.step, Invocation.settle]
    split <;> rfl
  | abort =>
    simp only [Invocation.step, Invocation.settle]
    split
    · rfl
    · split
      · split <;> rfl
      · rfl

theorem foldl_argv (events : List ProcEvent) :
    ∀ s : Invocation, (events.foldl Invocation.step s).argv = s.argv := by
  induction events with
  | nil => intro s; rfl
  | cons e es ih => intro s; rw [List.foldl_cons, ih, step_argv]

/-- The command line of an invocation is the URL followed by the arguments. -/
theorem executeYtDlp_argv (url : String) (args : List String) (signal : Bool)
    (events : List ProcEvent) : (executeYtDlp url args signal events).argv = url :: args := by
  unfold executeYtDlp
  rw [foldl_argv]

/-- The first process a validated download request spawns. -/
theorem downloadRun_first_spawn (P : Platform) (req : DownloadRequest) (url : String)
    (infoTool mediaTool : List ProcEvent)
    (hurl : req.url = some url) (hne : url ≠ "") (hsup : isSupportedUrl P url = true) :
    (downloadRun P req infoTool mediaTool).spawned.head? = some (url :: infoArgs url) := by
  simp only [downloadRun, hurl, hne, if_false, hsup, Bool.not_true, Bool.false_eq_true]
  repeat' split
  all_goals simp only [List.head?_cons, executeYtDlp_argv]

/-- The processes a download request spawns once its metadata fetch has succeeded. -/
theorem downloadRun_spawned (P : Platform) (req : DownloadRequest)
    (url infoResult title : String) (info : JsVal) (infoTool mediaTool : List ProcEvent)
    (hurl : req.url = some url) (hne : url ≠ "") (hsup : isSupportedUrl P url = true)
    (hinfo : (executeYtDlp url (infoArgs url) true infoTool).settled
      = some (.resolved infoResult))
    (hdoc : infoResult ≠ "") (hparse : P.jsonParse infoResult = .ok info)
    (htitle : getProp P info "title" = .ok (.str title)) :
    (downloadRun P req infoTool mediaTool).spawned =
      [url :: infoArgs url, url :: downloadArgs url (req.format.getD "best")] := by
  simp only [downloadRun, hurl, hne, if_false, hsup, Bool.not_true, Bool.false_eq_true,
    hinfo, hdoc, hparse, htitle]
  repeat' split
  all_goals simp only [executeYtDlp_argv]

/-- A request that fails validation spawns no process. -/
theorem downloadRun_rejected (P : Platform) (req : DownloadRequest)
    (infoTool mediaTool : List ProcEvent)
    (h : ∀ url, req.url = some url → url = "" ∨ isSupportedUrl P url = false) :
    (downloadRun P req infoTool mediaTool).spawned = [] := by
  cases hu : req.url with
  | none => simp only [downloadRun, hu]
  | some url =>
    rcases h url hu with h1 | h1
    · simp only [downloadRun, hu, h1, if_true]
    · by_cases h2 : url = ""
      · simp only [downloadRun, hu, h2, if_true]
      · simp only [downloadRun, hu, h2, if_false, h1, Bool.not_false, if_true]


/-- C10: handling as platform X is keyed on the raw URL string.  Every download request
that passes validation hands the tool, for its metadata fetch, the URL and the two
metadata arguments, followed by the extractor arguments of platform X exactly when the
URL string contains `tiktok.com`; once the metadata fetch has succeeded it hands the
tool, for the media fetch, the URL, `--format` with the expression of the table of
platform X and the arguments of platform X after the common ones when the URL string
contains `tiktok.com`, and `--format` with the expression of the regular table and the
common arguments only when it does not; a request that fails validation spawns nothing.
The `platform` field of the request changes nothing of the run.  The URL `crossUrl`,
whose host name `www.youtube.com` does not contain `tiktok.com`, passes the gate and is
handled as platform X. -/
theorem platformX_keyed_on_url (P : Platform)
    (hparse : P.parseURL crossUrl = some { hostname := "www.youtube.com" }) :
    (∀ url format : String,
      (isTikTok url = true ↔ "tiktok.com".data <:+: url.data) ∧
      ("--extractor-args" ∈ infoArgs url ↔ "tiktok.com".data <:+: url.data) ∧
      ("--merge-output-format" ∈ downloadArgs url format ↔ "tiktok.com".data <:+: url.data)) ∧
    (∀ (req : DownloadRequest) (url : String) (infoTool mediaTool : List ProcEvent),
      req.url = some url → url ≠ "" → isSupportedUrl P url = true →
      ("tiktok.com".data <:+: url.data →
        (downloadRun P req infoTool mediaTool).spawned.head? = some
          [url, "--dump-single-json", "--no-playlist",
           "--extractor-args", "tiktok:api_hostname=api16-normal-c-useast1a.tiktokv.com",
           "--force-generic-extractor"] ∧
        ∀ (infoResult title : String) (info : JsVal),
          (executeYtDlp url (infoArgs url) true infoTool).settled
            = some (.resolved infoResult) →
          infoResult ≠ "" → P.jsonParse infoResult = .ok info →
          getProp P info "title" = .ok (.str title) →
          (downloadRun P req infoTool mediaTool).spawned =
            [[url, "--dump-single-json", "--no-playlist",
              "--extractor-args", "tiktok:api_hostname=api16-normal-c-useast1a.tiktokv.com",
              "--force-generic-extractor"],
             [url, "--format", formatString (req.format.getD "best") true,
              "--output", "-",
              "--no-playlist",
              "--no-check-certificates",
              "--no-warnings",
              "--prefer-free-formats",
              "--add-header", "referer:youtube.com",
              "--add-header", "user-agent:Mozilla/5.0 (Windows NT 10.0; Win64; x64) AppleWebKit/537.36 (KHTML, like Gecko) Chrome/91.0.4472.124 Safari/537.36",
              "--extractor-args", "tiktok:api_hostname=api16-normal-c-useast1a.tiktokv.com",
              "--force-generic-extractor",
              "--no-part",
              "--merge-output-format", "mp4",
              "--postprocessors", "merge",
              "--add-header", "user-agent:Mozilla/5.0 (Windows NT 10.0; Win64; x64) AppleWebKit/537.36 (KHTML, like Gecko) Chrome/120.0.0.0 Safari/537.36",
              "--add-header", "referer:https://www.tiktok.com/",
              "--add-header", "accept:video/webm,video/ogg,video/*;q=0.9,application/ogg;q=0.7,audio/*;q=0.6,*/*;q=0.5"]]) ∧
      (¬ "tiktok.com".data <:+: url.data →
        (downloadRun P req infoTool mediaTool).spawned.head? = some
          [url, "--dump-single-json", "--no-playlist"] ∧
        ∀ (infoResult title : String) (info : JsVal),
          (executeYtDlp url (infoArgs url) true infoTool).settled
            = some (.resolved infoResult) →
          infoResult ≠ "" → P.jsonParse infoResult = .ok info →
          getProp P info "title" = .ok (.str title) →
          (downloadRun P req infoTool mediaTool).spawned =
            [[url, "--dump-single-json", "--no-playlist"],
             [url, "--format", formatString (req.format.getD "best") false,
              "--output", "-",
              "--no-playlist",
              "--no-check-certificates",
              "--no-warnings",
              "--prefer-free-formats",
              "--add-header", "referer:youtube.com",
              "--add-header", "user-agent:Mozilla/5.0 (Windows NT 10.0; Win64; x64) AppleWebKit/537.36 (KHTML, like Gecko) Chrome/91.0.4472.124 Safari/537.36"]])) ∧
    (∀ (req : DownloadRequest) (infoTool mediaTool : List ProcEvent),
      (∀ url, req.url = some url → url = "" ∨ isSupportedUrl P url = false) →
      (downloadRun P req infoTool mediaTool).spawned = []) ∧
    (∀ (req : DownloadRequest) (platform : Option String) (infoTool mediaTool : List ProcEvent),
      downloadRun P { req with platform := platform } infoTool mediaTool
        = downloadRun P req infoTool mediaTool) ∧
    (isSupportedUrl P crossUrl = true ∧
      ¬ "tiktok.com".data <:+: "www.youtube.com".data ∧
      "tiktok.com".data <:+: crossUrl.data ∧
      ∀ (format platform : Option String) (infoTool mediaTool : List ProcEvent),
        (downloadRun P { url := some crossUrl, format := format, platform := platform }
          infoTool mediaTool).spawned.head? = some
          [crossUrl, "--dump-single-json", "--no-playlist",
           "--extractor-args", "tiktok:api_hostname=api16-normal-c-useast1a.tiktokv.com",
           "--force-generic-extractor"]) := by
  have hk : ∀ url : String, isTikTok url = true ↔ "tiktok.com".data <:+: url.data :=
    fun url => includes_iff url _
  have hcross : isSupportedUrl P crossUrl = true := by
    simp only [isSupportedUrl, hparse]
    decide
  refine ⟨fun url format => ⟨hk url, (mem_infoArgs_flag url).trans (hk url),
      (mem_downloadArgs_flag url format).trans (hk url)⟩,
    fun req url infoTool mediaTool hurl hne hsup => ⟨fun h => ?_, fun h => ?_⟩,
    fun req infoTool mediaTool h => downloadRun_rejected P req infoTool mediaTool h,
    fun req platform infoTool mediaTool => rfl,
    hcross, ?_, (hk crossUrl).1 (by decide), fun format platform infoTool mediaTool => ?_⟩
  · have ht : includes url "tiktok.com" = true := (hk url).2 h
    refine ⟨?_, fun infoResult title info hinfo hdoc hp htitle => ?_⟩
    · rw [downloadRun_first_spawn P req url infoTool mediaTool hurl hne hsup]
      simp only [infoArgs, ht, if_true, List.cons_append, List.nil_append]
    · rw [downloadRun_spawned P req url infoResult title info infoTool mediaTool hurl hne hsup
        hinfo hdoc hp htitle]
      simp only [infoArgs, downloadArgs, baseDownloadArgs, tikTokDownloadArgs, isTikTok, ht,
        if_true, List.cons_append, List.nil_append]
  · have ht : includes url "tiktok.com" = false := by
      cases hb : includes url "tiktok.com" with
      | false => rfl
      | true => exact absurd ((hk url).1 hb) h
    refine ⟨?_, fun infoResult title info hinfo hdoc hp htitle => ?_⟩
    · rw [downloadRun_first_spawn P req url infoTool mediaTool hurl hne hsup]
      simp only [infoArgs, ht, Bool.false_eq_true, if_false, List.append_nil]
    · rw [downloadRun_spawned P req url infoResult title info infoTool mediaTool hurl hne hsup
        hinfo hdoc hp htitle]
      simp only [infoArgs, downloadArgs, baseDownloadArgs, isTikTok, ht, Bool.false_eq_true,
        if_false, List.append_nil]
  · rw [← includes_iff]
    decide
  · rw [downloadRun_first_spawn P _ crossUrl infoTool mediaTool rfl (by decide) hcross]
    rfl

/-- C10 with the stand-in parser, which gives the host name `www.youtube.com` for
`crossUrl`: the request for `crossUrl` with the format `720` passes the gate and, its
metadata fetched, hands the tool the arguments and the 720 chain of platform X. -/
theorem platformX_keyed_on_url_witness :
    samplePlatform.parseURL crossUrl = some { hostname := "www.youtube.com" } ∧
    isSupportedUrl samplePlatform crossUrl = true ∧
    (downloadRun samplePlatform
      { url := some crossUrl, format := some "720", platform := some "youtube" }
      [.stdoutData scenarioJson, .close (some 0)] [.stdoutData "media", .close (some 0)]).spawned =
      [[crossUrl, "--dump-single-json", "--no-playlist",
        "--extractor-args", "tiktok:api_hostname=api16-normal-c-useast1a.tiktokv.com",
        "--force-generic-extractor"],
       [crossUrl, "--format",
        "best[height<=720][ext=mp4]/bestvideo[height<=720][ext=mp4]+bestaudio[ext=m4a]/best[height<=480][ext=mp4]",
        "--output", "-",
        "--no-playlist",
        "--no-check-certificates",
        "--no-warnings",
        "--prefer-free-formats",
        "--add-header", "referer:youtube.com",
        "--add-header", "user-agent:Mozilla/5.0 (Windows NT 10.0; Win64; x64) AppleWebKit/537.36 (KHTML, like Gecko) Chrome/91.0.4472.124 Safari/537.36",
        "--extractor-args", "tiktok:api_hostname=api16-normal-c-useast1a.tiktokv.com",
        "--force-generic-extractor",
        "--no-part",
        "--merge-output-format", "mp4",
        "--postprocessors", "merge",
        "--add-header", "user-agent:Mozilla/5.0 (Windows NT 10.0; Win64; x64) AppleWebKit/537.36 (KHTML, like Gecko) Chrome/120.0.0.0 Safari/537.36",
        "--add-header", "referer:https://www.tiktok.com/",
        "--add-header", "accept:video/webm,video/ogg,video/*;q=0.9,application/ogg;q=0.7,audio/*;q=0.6,*/*;q=0.5"]] :=
  ⟨rfl, (platformX_keyed_on_url samplePlatform rfl).2.2.2.2.1,
    ((platformX_keyed_on_url samplePlatform rfl).2.1
      { url := some crossUrl, format := some "720", platform := some "youtube" } crossUrl
      [.stdoutData scenarioJson, .close (some 0)] [.stdoutData "media", .close (some 0)]
      rfl (by decide) (by decide)).1
      ((platformX_keyed_on_url samplePlatform rfl).2.2.2.2.2.2.1)
      |>.2 scenarioJson "My Video!" scenarioInfo (by decide) (by decide) rfl rfl⟩

end Downloader
